import Mathlib

/-!
Shallow embedding of the minimega VNC playback engine (`src/vnc/playback.go`)
and of the search-matching collaborator (`ExpressionTree.match` in the
unnamed JavaScript source), with theorems settling the frozen claims.

Modelling conventions:
* Go `time.Duration` values are `Int` nanosecond counts.
* The concurrent channels are modelled by explicit data: the events sent on
  `p.out` and the screenshot files written are accumulated in lists inside the
  session state; the control-signal channel is modelled by a trace of receive
  outcomes (`TraceEvt`) consumed by the interpreter at each of its suspension
  points, with `recv _ none` standing for "channel closed".
* Go interface values stored in `sig.data` are modelled by the `SigData` sum,
  which distinguishes a `*LoadFileEvent` from a `LoadFileEvent` so that Go
  type assertions (which panic on mismatch) can be modelled exactly.
* Fallible operations return `Except`/`Option`; a Go panic is the `panicked`
  outcome.  Recursion through nested script files is bounded by explicit fuel;
  exhausting the fuel or the trace yields the `stuck` outcome, an artifact of
  the finite model and never a behaviour of the program.
-/

namespace Vnc

/-! ## String helpers (models of the Go/JS standard library functions used) -/

/-- Split a character list at the first occurrence of `sep`; `none` when `sep`
does not occur.  Underlies the model of Go `strings.SplitN(s, sep, 2)`. -/
def brk (sep : Char) : List Char → Option (List Char × List Char)
  | [] => none
  | c :: cs =>
    if c = sep then some ([], cs)
    else
      match brk sep cs with
      | none => none
      | some (l, r) => some (c :: l, r)

/-- Model of Go `strings.SplitN(s, sep, 2)` restricted to a one-character
separator: `none` models the length-1 result slice (no separator present),
`some (before, after)` the length-2 slice. -/
def splitN2 (sep : Char) (s : String) : Option (String × String) :=
  (brk sep s.toList).map fun p => (String.mk p.1, String.mk p.2)

/-- Model of Go `strings.HasPrefix(s, "#")`. -/
def commentLine (s : String) : Bool :=
  match s.toList with
  | c :: _ => c = '#'
  | [] => false

/-- ASCII lower-casing of one character (model of the ASCII fragment of
Go `strings.ToLower` / JS `toLowerCase`). -/
def lowerChar (c : Char) : Char :=
  if 'A' ≤ c ∧ c ≤ 'Z' then Char.ofNat (c.toNat + 32) else c

/-- ASCII lower-casing of a string. -/
def lowerStr (s : String) : String := String.mk (s.toList.map lowerChar)

/-- Does the second list start with the first? -/
def chkLead : List Char → List Char → Bool
  | [], _ => true
  | _ :: _, [] => false
  | a :: as, b :: bs => a = b && chkLead as bs

/-- Substring containment on character lists (model of JS `String.includes`):
`containsChars needle hay` holds when `needle` occurs inside `hay`. -/
def containsChars (needle : List Char) : List Char → Bool
  | [] => needle.isEmpty
  | hay@(_ :: rest) => chkLead needle hay || containsChars needle rest

/-- Model of JS `hay.includes(needle)`. -/
def stringIncludes (hay needle : String) : Bool :=
  containsChars needle.toList hay.toList

/-- Split a character list on a separator character (model of JS
`String.split`). -/
def splitOnChar (sep : Char) : List Char → List (List Char)
  | [] => [[]]
  | c :: cs =>
    if c = sep then [] :: splitOnChar sep cs
    else
      match splitOnChar sep cs with
      | [] => [[c]]
      | g :: gs => (c :: g) :: gs

/-- Model of JS `String.trim` on character lists: drop surrounding spaces. -/
def trimChars (cs : List Char) : List Char :=
  ((cs.dropWhile (fun c => c = ' ')).reverse.dropWhile (fun c => c = ' ')).reverse

/-- Numeric value of a decimal digit list. -/
def digitsVal (cs : List Char) : Nat :=
  cs.foldl (fun n c => n * 10 + (c.toNat - '0'.toNat)) 0

/-- Model of Go `time.ParseDuration(s + "ns")` for the canonical form produced
by the recorder: a non-empty string of decimal digits, read as a nanosecond
count.  Go's duration grammar additionally accepts signs, fractions and
embedded unit suffixes; those forms never occur in the claims and are modelled
as parse failures. -/
def parseDelay (s : String) : Option Nat :=
  let cs := s.toList
  if cs ≠ [] ∧ cs.all Char.isDigit then some (digitsVal cs) else none

/-! ## Models of Go `path/filepath` on Unix paths -/

/-- Model of Go `filepath.IsAbs` on Unix: the path starts with a slash. -/
def goIsAbs (s : String) : Bool :=
  match s.toList with
  | c :: _ => c = '/'
  | [] => false

/-- Model of Go `filepath.Dir` for the common path shapes: the text before the
final slash, `"."` when there is no slash, `"/"` for a root-level entry.
Go additionally runs `Clean` on the result, which is the identity on the
already-clean paths exercised here. -/
def goDir (s : String) : String :=
  match s.toList.reverse.dropWhile (fun c => c ≠ '/') with
  | [] => "."
  | ['/'] => "/"
  | _ :: rest => String.mk rest.reverse

/-- Model of Go `filepath.Join(a, b)` for already-clean components. -/
def goJoin (a b : String) : String :=
  if a = "" then b else a ++ "/" ++ b

/-! ## Event and directive model

`Control`, `LoadFileEvent`, `WaitForItEvent` and the `Event` interface are
declared in other files of the `vnc` package; they are modelled here from
their uses in `playback.go` and from the spec: wire events are opaque payloads
written verbatim to the connection, `LoadFileEvent` carries the nested script
path and `WaitForItEvent` carries the reference name and the timeout in
nanoseconds. -/

/-- Control kinds carried on the signal channel. -/
inductive Control where
  | Play
  | Pause
  | Step
  | LoadFile
  | WaitForIt
deriving DecidableEq, Repr

/-- The nested-script directive (`*LoadFileEvent` in Go). -/
structure LoadFileEvent where
  File : String
deriving DecidableEq, Repr

/-- The synchronization directive (`*WaitForItEvent` in Go). -/
structure WaitForItEvent where
  File : String
  Timeout : Int
deriving DecidableEq, Repr

/-- Result of the external script grammar (`parseEvent`) for one directive
text: a wire event (satisfying the Go `Event` interface), a `*LoadFileEvent`,
or a `*WaitForItEvent`. -/
inductive ParsedEvent where
  | wire (payload : String)
  | loadFile (e : LoadFileEvent)
  | waitForIt (e : WaitForItEvent)
deriving DecidableEq, Repr

/-- The dynamic type of the `interface{}` stored in `sig.data`.  Go
distinguishes the pointer type `*LoadFileEvent` from the value type
`LoadFileEvent`; a type assertion against the wrong one panics. -/
inductive SigData where
  | ptrLoadFile (e : LoadFileEvent)
  | valLoadFile (e : LoadFileEvent)
  | ptrWaitForIt (e : WaitForItEvent)
  | valWaitForIt (e : WaitForItEvent)
  | noData
deriving DecidableEq, Repr

/-- A control signal: `type signal struct { kind Control; data interface{} }`. -/
structure Sig where
  kind : Control
  data : SigData
deriving DecidableEq, Repr

/-- Model of the Go type assertion `sig.data.(LoadFileEvent)` (value type):
succeeds only on a `LoadFileEvent` value; on anything else Go panics, modelled
by `none`. -/
def assertValLoadFile : SigData → Option LoadFileEvent
  | .valLoadFile e => some e
  | _ => none

/-- Model of the Go type assertion `sig.data.(*WaitForItEvent)` (pointer
type). -/
def assertPtrWaitForIt : SigData → Option WaitForItEvent
  | .ptrWaitForIt e => some e
  | _ => none

/-! ## Session state -/

/-- The mutable state of one `playback` session.  Channels are modelled by
data: `signalClosed` records that `close(p.signal)` ran, `out` accumulates the
wire events sent on `p.out`, and `shots` the screenshot files written.  `file`
holds the name of the currently-read script file (`p.file`, `nil` before
`Start`). -/
structure Playback where
  ID : String := ""
  depth : Int := 0
  duration : Int := 0
  e : String := ""
  state : Control := Control.Play
  closed : Bool := false
  signalClosed : Bool := false
  file : Option String := none
  out : List String := []
  shots : List String := []
  lastErr : Option String := none
deriving DecidableEq, Repr

/-- The method `(p *playback) addDuration(d)`. -/
def addDuration (p : Playback) (d : Int) : Playback :=
  { p with duration := p.duration + d }

/-- The method `(p *playback) setStep(s)`. -/
def setStep (p : Playback) (s : String) : Playback :=
  { p with e := s }

/-- The method `(p *playback) setFile(f)`: increments `depth`, fails once
`depth` exceeds 100 (the increment is kept and the file pointer is left
unchanged), otherwise installs the new file and returns the previous one. -/
def setFile (p : Playback) (f : String) : Playback × Except String (Option String) :=
  let p1 := { p with depth := p.depth + 1 }
  if p1.depth > 100 then (p1, Except.error "too many recursive LoadFiles")
  else ({ p1 with file := some f }, Except.ok p.file)

/-- The method `(p *playback) resetFile(old)`. -/
def resetFile (p : Playback) (old : Option String) : Playback :=
  { p with depth := p.depth - 1, file := old }

/-- The path resolution at the top of `playFile`: a relative path with a
parent script file is resolved against the parent's directory; absolute paths
and the top-level file are opened as given. -/
def resolvePath (parent : Option String) (filename : String) : String :=
  match parent with
  | some pname => if goIsAbs filename then filename else goJoin (goDir pname) filename
  | none => filename

/-! ## Session façade -/

/-- The method `(p *playback) Closed()`. -/
def Closed (p : Playback) : Bool := p.closed

/-- Result of `Info`: `nil` for a closed session, a panic when `p.file` is
still `nil` (Go would dereference a nil `*os.File`), otherwise the row list. -/
inductive InfoResult where
  | nilInfo
  | filePanic
  | rows (rs : List String)
deriving DecidableEq, Repr

/-- Display of a duration.  Go prints `time.Duration` with unit suffixes;
modelled as the raw nanosecond count, which is all the claims depend on. -/
def fmtDuration (d : Int) : String := toString d

/-- The method `(p *playback) Info()`. -/
def Info (p : Playback) : InfoResult :=
  if p.closed then .nilInfo
  else
    match p.file with
    | none => .filePanic
    | some name =>
      .rows ([p.ID, "playback kb"] ++
        (if p.state = Control.Pause then ["PAUSED"]
         else [fmtDuration p.duration ++ " remaining"]) ++ [name])

/-- The method `(p *playback) Step()`: precondition `state = Play ∧ ¬closed`;
sends a `Step` signal (a channel effect) and leaves the state unchanged. -/
def Step (p : Playback) : Except String Playback :=
  if p.state ≠ Control.Play ∨ p.closed = true then Except.error "playback not stepable"
  else Except.ok p

/-- The method `(p *playback) Pause()`. -/
def Pause (p : Playback) : Except String Playback :=
  if p.state ≠ Control.Play ∨ p.closed = true then Except.error "playback not pauseable"
  else Except.ok { p with state := Control.Pause }

/-- The method `(p *playback) Continue()`. -/
def Continue (p : Playback) : Except String Playback :=
  if p.state ≠ Control.Pause ∨ p.closed = true then Except.error "playback not playable"
  else Except.ok { p with state := Control.Play }

/-- The method `(p *playback) Stop()`: on a session that is not yet closed it
closes the signal channel and sets `closed`; on a closed session it returns an
error and changes nothing. -/
def Stop (p : Playback) : Except String Playback :=
  if p.closed then Except.error "playback has already stopped"
  else Except.ok { p with signalClosed := true, closed := true }

/-- The method `(p *playback) GetStep()`. -/
def GetStep (p : Playback) : Except String String :=
  if p.closed then Except.error "playback has already stopped"
  else Except.ok p.e

/-- The external script grammar and the filesystem, the two collaborators of
the interpreter.  `grammar` models `parseEvent` (parse failure is `none`);
`fs` maps a resolved path to the lines of the script file, `none` meaning
`os.Open` fails. -/
structure Env where
  grammar : String → Option ParsedEvent
  fs : String → Option (List String)

/-- Visible effect of `(p *playback) Inject(cmd)`: the error returned, a wire
event placed on the outbound queue, or a signal placed on the signal channel.
A parsed `*LoadFileEvent` is sent as `signal{kind: LoadFile, data: e}` where
`e` has the pointer type `*LoadFileEvent`. -/
inductive InjectOut where
  | failed (msg : String)
  | queuedEvent (payload : String)
  | sentSignal (s : Sig)
deriving DecidableEq, Repr

/-- The method `(p *playback) Inject(cmd)`. -/
def Inject (env : Env) (p : Playback) (cmd : String) : InjectOut :=
  if p.closed then .failed "playback has already stopped"
  else
    match env.grammar cmd with
    | none => .failed "invalid event"
    | some (.wire payload) => .queuedEvent payload
    | some (.loadFile e) => .sentSignal { kind := Control.LoadFile, data := SigData.ptrLoadFile e }
    | some (.waitForIt e) => .sentSignal { kind := Control.WaitForIt, data := SigData.ptrWaitForIt e }

/-- One externally invokable façade operation, used to state that the
`closed` flag is one-way across the whole surface. -/
inductive FacadeOp where
  | stopOp
  | pauseOp
  | continueOp
  | stepOp
  | injectOp (cmd : String)
  | infoOp
  | getStepOp
  | setStepOp (s : String)
  | addDurationOp (d : Int)

/-- The session state after running one façade operation (on a failed
precondition the Go methods return before mutating, so the state is
unchanged). -/
def afterOp (p : Playback) : FacadeOp → Playback
  | .stopOp => match Stop p with | .ok q => q | .error _ => p
  | .pauseOp => match Pause p with | .ok q => q | .error _ => p
  | .continueOp => match Continue p with | .ok q => q | .error _ => p
  | .stepOp => match Step p with | .ok q => q | .error _ => p
  | .injectOp _ => p
  | .infoOp => p
  | .getStepOp => p
  | .setStepOp s => setStep p s
  | .addDurationOp d => addDuration p d

/-! ## Script interpreter -/

/-- Modelled from the spec: `getDuration` (defined outside the provided
sources) yields the total scripted duration of a file, added to the session's
remaining-duration estimate when the file is opened (`v.addDuration(getDuration(f))`);
modelled as the sum of the parseable per-line delays. -/
def getDuration (lines : List String) : Int :=
  lines.foldl
    (fun acc text =>
      match splitN2 ':' text with
      | some (s0, _) =>
        if commentLine s0 then acc
        else
          match parseDelay s0 with
          | some d => acc + Int.ofNat d
          | none => acc
      | none => acc) 0

/-- Modelled from the spec: the external script grammar (`parseEvent`, an
out-of-scope collaborator) turns one directive text into a wire event, a
`LoadFile` directive, a `WaitForIt` directive, or a parse error.  This sample
instance, used for concrete witnesses, reads `key <k>` as a wire event,
`load <path>` as a `LoadFile`, and `wait <ref> <ns>` as a `WaitForIt` with the
given nanosecond timeout. -/
def sampleGrammar (s : String) : Option ParsedEvent :=
  match splitN2 ' ' s with
  | some ("key", rest) => some (.wire ("key " ++ rest))
  | some ("load", rest) => some (.loadFile { File := rest })
  | some ("wait", rest) =>
    (match splitN2 ' ' rest with
     | some (ref, t) =>
       match parseDelay t with
       | some n => some (.waitForIt { File := ref, Timeout := Int.ofNat n })
       | none => none
     | none => none)
  | _ => none

/-- One observed outcome of a suspension point, consumed from the trace:
`timer` means the `time.After` case of the select fired; `recv w s` means a
signal receive completed after `w` nanoseconds with `s` (`none` when the
channel was closed); `frame w` means a screenshot arrived after `w`
nanoseconds; `noFrame` means the synchronizer's select timed out. -/
inductive TraceEvt where
  | timer
  | recv (w : Int) (s : Option Sig)
  | frame (w : Int)
  | noFrame
deriving DecidableEq, Repr

/-- Result of interpreting (part of) a script file: returned `nil`, returned
an error, panicked, or — an artifact of the finite model only — ran out of
fuel or trace. -/
inductive RunRes where
  | ok
  | err (msg : String)
  | panicked (msg : String)
  | stuck
deriving DecidableEq, Repr

/-- Result of the interruptible wait loop: fall through to the `Event` label,
or finish the whole `playFile` call with the given result. -/
inductive WaitRes where
  | proceed
  | fin (r : RunRes)
deriving DecidableEq, Repr

/-- The bookkeeping `playFile` performs when a control signal interrupts the
wait (playback.go lines 327–331).  After `w` nanoseconds of real waiting,
`waited := start.Sub(time.Now())` evaluates to `-w` (`start` is earlier than
`time.Now()`), after which the code runs `v.addDuration(-waited)` and
`duration -= waited`.  Returns the new outstanding delay paired with the
delta added to the session's remaining-duration estimate. -/
def signalAdjust (d w : Int) : Int × Int :=
  let waited := -w
  (d - waited, -waited)

/-- The panic raised by `sig.data.(LoadFileEvent)` when `sig.data` holds a
`*LoadFileEvent`. -/
def panicLoadFileMsg : String :=
  "interface conversion: sig.data is *LoadFileEvent, not LoadFileEvent"

/-- The panic raised by `sig.data.(*WaitForItEvent)` on a mismatched dynamic
type. -/
def panicWaitForItMsg : String :=
  "interface conversion: sig.data is not *WaitForItEvent"

/-- Filename of the `i`-th screenshot written by one `waitForIt` call:
`fmt.Sprintf("screenshot-%v.png", i)`. -/
def screenshotName (i : Nat) : String :=
  "screenshot-" ++ toString i ++ ".png"

/-- The polling loop of `(p *playback) waitForIt`: while the remaining
`timeout` is positive, request a framebuffer update and race a screenshot
against `time.After(timeout)`.  A frame arriving after `w < timeout` is
persisted to the next numbered file, `w` and a fixed one-second sleep are
charged against the timeout, and the loop re-enters; otherwise the call
returns a timeout error naming the reference.  `fb.Write`, `os.Create` and
`png.Encode` are modelled as succeeding.  Returns the files written, the
remaining trace and the result — note every non-stuck exit is the timeout
error: the function has no success path. -/
def waitForItFrom (file : String) (timeout : Int) (i : Nat) (shots : List String) :
    List TraceEvt → List String × List TraceEvt × RunRes
  | [] =>
    if timeout > 0 then (shots, [], .stuck)
    else (shots, [], .err ("timeout waiting for " ++ file))
  | evt :: tr =>
    if timeout > 0 then
      match evt with
      | .frame w =>
        if w < timeout then
          waitForItFrom file (timeout - w - 1000000000) (i + 1)
            (shots ++ [screenshotName i]) tr
        else (shots, tr, .err ("timeout waiting for " ++ file))
      | _ => (shots, tr, .err ("timeout waiting for " ++ file))
    else (shots, evt :: tr, .err ("timeout waiting for " ++ file))

/-- The method `(p *playback) waitForIt(e)`:
`timeout := time.Duration(e.Timeout) * time.Nanosecond`, then the polling
loop starting at screenshot index 0. -/
def waitForIt (e : WaitForItEvent) (tr : List TraceEvt) :
    List String × List TraceEvt × RunRes :=
  waitForItFrom e.File e.Timeout 0 [] tr

/-- Classification of one script line by the per-line logic at the top of
`playFile`'s scanner loop: the line is skipped (malformed: no `:` separator;
comment: delay field begins with `#`; directive text fails to parse; delay
fails to parse — note `setStep` has already run in the last case), or it is
executed with the parsed delay and directive. -/
inductive LineAct where
  | skipLine (st : Playback)
  | runLine (st : Playback) (d : Int) (res : ParsedEvent)
deriving DecidableEq, Repr

/-- The per-line logic of `playFile`'s scanner loop, in source order:
`strings.SplitN(text, ":", 2)`, the malformed-line check, the comment check,
`parseEvent(s[1])`, `v.setStep(text)`, `time.ParseDuration(s[0] + "ns")`. -/
def lineAct (env : Env) (st : Playback) (text : String) : LineAct :=
  match splitN2 ':' text with
  | none => .skipLine st
  | some (s0, s1) =>
    if commentLine s0 then .skipLine st
    else
      match env.grammar s1 with
      | none => .skipLine st
      | some res =>
        let st1 := setStep st text
        match parseDelay s0 with
        | none => .skipLine st1
        | some d => .runLine st1 (Int.ofNat d) res

mutual

/-- The method `(v *playback) playFile(parent, filename)`: resolve the path,
open the file, add its scripted duration, `setFile` (whose failure — the
recursion limit — returns *before* the deferred `resetFile` is registered),
interpret the lines, and on every other exit run the deferred
`resetFile(old)` (Go runs deferred calls on normal returns, error returns and
panic unwinding alike; `stuck` is a model artifact and performs no
unwinding). -/
def playFile : Nat → Env → Option String → String → Playback → List TraceEvt →
    Playback × List TraceEvt × RunRes
  | 0, _, _, _, st, tr => (st, tr, .stuck)
  | Nat.succ fuel, env, parent, filename, st, tr =>
    let resolved := resolvePath parent filename
    match env.fs resolved with
    | none => (st, tr, .err ("open " ++ resolved))
    | some fileLines =>
      let st1 := addDuration st (getDuration fileLines)
      match setFile st1 resolved with
      | (st2, .error msg) => (st2, tr, .err msg)
      | (st2, .ok old) =>
        match playLines fuel env resolved fileLines st2 tr with
        | (st3, tr3, .stuck) => (st3, tr3, .stuck)
        | (st3, tr3, r) => (resetFile st3 old, tr3, r)

/-- The scanner loop of `playFile` over the remaining lines of file `f`. -/
def playLines : Nat → Env → String → List String → Playback → List TraceEvt →
    Playback × List TraceEvt × RunRes
  | 0, _, _, _, st, tr => (st, tr, .stuck)
  | Nat.succ fuel, env, f, lns, st, tr =>
    match lns with
    | [] => (st, tr, .ok)
    | text :: rest =>
      match lineAct env st text with
      | .skipLine st1 => playLines fuel env f rest st1 tr
      | .runLine st1 d res =>
        match waitLoop fuel env f d st1 tr with
        | (st2, tr2, .fin r) => (st2, tr2, r)
        | (st2, tr2, .proceed) =>
          match runEvent fuel env f res st2 tr2 with
          | (st3, tr3, .ok) => playLines fuel env f rest st3 tr3
          | (st3, tr3, r) => (st3, tr3, r)

/-- The interruptible wait (`for { select { ... } }`) of `playFile` for one
script line of file `f` with outstanding delay `d`.  The `time.After` case
charges `d` to the session estimate and falls through to the `Event` label.
A signal is handled after the `signalAdjust` bookkeeping: `Pause` blocks for
exactly one more signal (`Play` resumes silently, anything else is logged —
both loop; a closed channel aborts cleanly, with no time bookkeeping during
the pause); `LoadFile` asserts `sig.data.(LoadFileEvent)` — the value type,
although `Inject` stores a `*LoadFileEvent` — and recurses; `WaitForIt`
asserts `sig.data.(*WaitForItEvent)` and runs the synchronizer; `Step`
charges the outstanding delay and falls through to `Event`; an unexpected
kind is logged and the loop re-enters. -/
def waitLoop : Nat → Env → String → Int → Playback → List TraceEvt →
    Playback × List TraceEvt × WaitRes
  | 0, _, _, _, st, tr => (st, tr, .fin .stuck)
  | Nat.succ fuel, env, f, d, st, tr =>
    match tr with
    | [] => (st, [], .fin .stuck)
    | evt :: tr1 =>
      match evt with
      | .timer => (addDuration st (-d), tr1, .proceed)
      | .frame _ => (st, tr1, .fin .stuck)
      | .noFrame => (st, tr1, .fin .stuck)
      | .recv _ none => (st, tr1, .fin .ok)
      | .recv w (some sig) =>
        let a := signalAdjust d w
        let d1 := a.1
        let st1 := addDuration st a.2
        match sig.kind with
        | .Pause =>
          (match tr1 with
           | TraceEvt.recv _ none :: tr2 => (st1, tr2, .fin .ok)
           | TraceEvt.recv _ (some _) :: tr2 => waitLoop fuel env f d1 st1 tr2
           | _ => (st1, tr1, .fin .stuck))
        | .LoadFile =>
          (match assertValLoadFile sig.data with
           | none => (st1, tr1, .fin (.panicked panicLoadFileMsg))
           | some e =>
             match playFile fuel env (some f) e.File st1 tr1 with
             | (st2, tr2, .ok) => waitLoop fuel env f d1 st2 tr2
             | (st2, tr2, r) => (st2, tr2, .fin r))
        | .WaitForIt =>
          (match assertPtrWaitForIt sig.data with
           | none => (st1, tr1, .fin (.panicked panicWaitForItMsg))
           | some e =>
             match waitForIt e tr1 with
             | (newShots, tr2, .ok) =>
               waitLoop fuel env f d1 { st1 with shots := st1.shots ++ newShots } tr2
             | (newShots, tr2, r) =>
               ({ st1 with shots := st1.shots ++ newShots }, tr2, .fin r))
        | .Step => (addDuration st1 (-d1), tr1, .proceed)
        | .Play => waitLoop fuel env f d1 st1 tr1

/-- The `Event` label of `playFile`: a wire event goes to the outbound queue;
a `*LoadFileEvent` recurses with the current file as parent; a
`*WaitForItEvent` runs the synchronizer. -/
def runEvent : Nat → Env → String → ParsedEvent → Playback → List TraceEvt →
    Playback × List TraceEvt × RunRes
  | 0, _, _, _, st, tr => (st, tr, .stuck)
  | Nat.succ fuel, env, f, res, st, tr =>
    match res with
    | .wire payload => ({ st with out := st.out ++ [payload] }, tr, .ok)
    | .loadFile e => playFile fuel env (some f) e.File st tr
    | .waitForIt e =>
      match waitForIt e tr with
      | (newShots, tr1, r) => ({ st with shots := st.shots ++ newShots }, tr1, r)

end

/-! ## Concrete environments for witnesses -/

/-- A filesystem in which every path holds the one-line script `0:load a`
(every file includes itself with zero delay), together with the sample
grammar: the canonical runaway-include input. -/
def sampleEnv : Env := { grammar := sampleGrammar, fs := fun _ => some ["0:load a"] }

/-- An environment whose filesystem has no files: every `os.Open` fails. -/
def noFilesEnv : Env := { grammar := sampleGrammar, fs := fun _ => none }

/-- Discriminator for `InfoResult.rows`. -/
def isRows : InfoResult → Bool
  | .rows _ => true
  | _ => false

/-! ## The search-matching collaborator (unnamed JavaScript source) -/

/-- One VM row as consumed by `ExpressionTree.match`: the fields the match
method reads. -/
structure VmInfo where
  name : String
  host : String
  vlan : String
  tags : String
  disk : String
  ip : String
  state : String
  busy : Bool
  captures : Nat
  DoNotBoot : Bool
deriving DecidableEq, Repr

/-- The `Vlans` case body: strip `[` and `]` from `vm.vlan`, split on commas,
and test whether any lower-cased, trimmed entry contains the term. -/
def vlansContain (vlan term : String) : Bool :=
  (splitOnChar ',' (vlan.toList.filter (fun c => !(c == '[' || c == ']')))).any
    (fun entry => containsChars term.toList (trimChars (entry.map lowerChar)))

/-- The method `ExpressionTree.match` (unnamed JS source, lines 89–159),
iterating the search-field list against one VM.  JS `switch` semantics are
modelled exactly: the `"Name"` case has no `continue`/`return` on its negative
path, so control falls through into the `"Host"` case body; `"State"`,
`"Busy"`, `"Captures"` and `"DoNotBoot"` return unconditionally; the other
cases continue with the next field, as does a field matching no case.  The
`IPv4` case delegates to the external `IPV4` class, abstracted as the
`ipv4Term` predicate (false covers the undefined-address `continue`).  The
term has already been lower-cased by `BuildTree`. -/
def vmMatch (ipv4Term : String → String → Bool) (vm : VmInfo) (term : String) :
    List String → Bool
  | [] => false
  | field :: rest =>
    if field = "IPv4" then
      (if ipv4Term term vm.ip then true else vmMatch ipv4Term vm term rest)
    else if field = "State" then
      (if term = "shutdown" ∨ term = "quit" then lowerStr vm.state == "quit"
       else lowerStr vm.state == term)
    else if field = "Busy" then vm.busy
    else if field = "Captures" then decide (0 < vm.captures)
    else if field = "DoNotBoot" then vm.DoNotBoot
    else if field = "Vlans" then
      (if vlansContain vm.vlan term then true else vmMatch ipv4Term vm term rest)
    else if field = "Name" then
      (if stringIncludes (lowerStr vm.name) term then true
       else if stringIncludes (lowerStr vm.host) term then true
       else vmMatch ipv4Term vm term rest)
    else if field = "Host" then
      (if stringIncludes (lowerStr vm.host) term then true
       else vmMatch ipv4Term vm term rest)
    else if field = "Tags" then
      (if stringIncludes (lowerStr vm.tags) term then true
       else vmMatch ipv4Term vm term rest)
    else if field = "Disk" then
      (if stringIncludes (lowerStr vm.disk) term then true
       else vmMatch ipv4Term vm term rest)
    else vmMatch ipv4Term vm term rest

/-- A VM whose name does not contain the term `bet` but whose host does. -/
def sampleVm : VmInfo :=
  { name := "alpha", host := "better-host", vlan := "", tags := "", disk := "",
    ip := "", state := "running", busy := false, captures := 0, DoNotBoot := false }

/-! ## Theorems settling the claims -/

/-- C1.  The claim says a signal interrupting a wait after elapsed time `w`
reduces the outstanding delay `d` by `w` (and adds `w` back to the session's
remaining-duration estimate).  The code's bookkeeping (`signalAdjust`, used by
`waitLoop`) instead sets the outstanding delay to `d + w`, because
`waited := start.Sub(time.Now())` is the negation of the elapsed time: with
`d` = 10s and `w` = 3s the delay still outstanding after the signal is 13s,
not the claimed 10s − 3s = 7s.  (The add-back of `w` to the remaining-duration
estimate — the second component — does match the claim.) -/
theorem C1_signal_wait_bookkeeping :
    (∀ d w : Int, signalAdjust d w = (d + w, w)) ∧
    signalAdjust 10000000000 3000000000 = (13000000000, 3000000000) ∧
    (13000000000 : Int) ≠ 10000000000 - 3000000000 := by
  refine ⟨fun d w => ?_, by decide, by decide⟩
  simp [signalAdjust, sub_neg_eq_add, neg_neg]

/-- Every exit of the synchronizer's polling loop is either the model-artifact
`stuck` (trace exhausted) or the timeout error naming the reference: there is
no success path. -/
theorem waitForItFrom_no_success (file : String) :
    ∀ (tr : List TraceEvt) (timeout : Int) (i : Nat) (shots : List String),
      (waitForItFrom file timeout i shots tr).2.2 = RunRes.stuck ∨
      (waitForItFrom file timeout i shots tr).2.2 =
        RunRes.err ("timeout waiting for " ++ file)
  | [], timeout, i, shots => by
    simp only [waitForItFrom]
    split
    · exact Or.inl rfl
    · exact Or.inr rfl
  | evt :: tr, timeout, i, shots => by
    simp only [waitForItFrom]
    split
    · match evt with
      | .timer => exact Or.inr rfl
      | .noFrame => exact Or.inr rfl
      | .recv w s => exact Or.inr rfl
      | .frame w =>
        simp only
        split
        · exact waitForItFrom_no_success file tr _ _ _
        · exact Or.inr rfl
    · exact Or.inr rfl

/-- C2 (amended).  `waitForIt` never returns success: whatever frames the
environment delivers, every run that does not exhaust the finite trace model
returns the timeout error naming the reference — a frame arriving before the
budget expires is persisted to the next numbered screenshot file and charged
(wait time plus the fixed one-second sleep) against the budget, after which
the loop polls again until the budget is gone. -/
theorem C2_waitForIt_never_succeeds (e : WaitForItEvent) (tr : List TraceEvt) :
    (waitForIt e tr).2.2 = RunRes.stuck ∨
    (waitForIt e tr).2.2 = RunRes.err ("timeout waiting for " ++ e.File) :=
  waitForItFrom_no_success e.File tr e.Timeout 0 []

/-- C2 counterexample.  The claim's success scenario — a 2-second timeout with
one frame arriving at 0.5s — writes one screenshot file but returns the
timeout error, not success: after persisting the frame the loop charges the
0.5s wait and a 1s sleep, re-polls with 0.5s of budget, and times out. -/
theorem C2_counterexample :
    waitForIt { File := "ref", Timeout := 2000000000 }
        [TraceEvt.frame 500000000, TraceEvt.noFrame] =
      (["screenshot-0.png"], [], RunRes.err "timeout waiting for ref") ∧
    RunRes.err "timeout waiting for ref" ≠ RunRes.ok :=
  ⟨by decide, by decide⟩

/-- C5.  `Stop` on a session that is not yet closed closes the signal channel,
sets `closed`, and returns no error; `Stop` on the resulting state returns an
error (and, by the first conjunct applied to any closed state, changes
nothing); and no façade operation ever takes `closed` from `true` back to
`false`. -/
theorem C5_stop_transition (p : Playback) (h : p.closed = false) :
    Stop p = Except.ok { p with signalClosed := true, closed := true } ∧
    ({ p with signalClosed := true, closed := true } : Playback).closed = true ∧
    Stop { p with signalClosed := true, closed := true } =
      Except.error "playback has already stopped" ∧
    ∀ (q : Playback) (op : FacadeOp), q.closed = true → (afterOp q op).closed = true := by
  refine ⟨by simp [Stop, h], rfl, by simp [Stop], ?_⟩
  intro q op hq
  cases op <;> simp [afterOp, Stop, Pause, Continue, Step, setStep, addDuration, hq]

/-- C5 witness: the transition at the freshly created session. -/
theorem C5_stop_transition_witness :
    Stop ({} : Playback) =
      Except.ok { ({} : Playback) with signalClosed := true, closed := true } :=
  (C5_stop_transition {} rfl).1

/-- C3.  The claim says depth is decremented on every exit path of `playFile`,
including the one where the recursion-limit error fires, so that depth always
equals the number of nested includes currently open.  The code violates this
on exactly that path: `setFile` increments `depth` and then fails, and since
the deferred `resetFile` is only registered after `setFile` succeeds, the
failing invocation returns with the increment kept (first conjunct: the final
state of the limit-hitting invocation has `depth = st.depth + 1`, its
`file`/`out`/`shots` untouched).  Concretely (second conjunct): running the
self-including script `0:load a` from depth 99 ends with depth 100 even
though every include it opened has been closed — the leak of one that, from
depth 0, leaves the session at depth 1 instead of 0 after the chain of 101
unwinds. -/
theorem C3_depth_leak :
    (∀ (fuel : Nat) (env : Env) (parent : Option String) (fn : String)
       (st : Playback) (tr : List TraceEvt) (lns : List String),
       env.fs (resolvePath parent fn) = some lns →
       st.depth + 1 > 100 →
       playFile (fuel + 1) env parent fn st tr =
         ({ st with duration := st.duration + getDuration lns,
                    depth := st.depth + 1 }, tr,
          RunRes.err "too many recursive LoadFiles")) ∧
    playFile 10 sampleEnv none "a" { depth := 99 } [TraceEvt.timer] =
      ({ depth := 100, e := "0:load a" }, [],
       RunRes.err "too many recursive LoadFiles") := by
  refine ⟨?_, by decide⟩
  intro fuel env parent fn st tr lns hfs hd
  simp only [playFile, hfs, setFile, addDuration, hd]
  simp [hd]

/-- C3 witness: the limit-hitting invocation itself, at depth 100, keeps its
increment. -/
theorem C3_depth_leak_witness :
    playFile 1 sampleEnv none "a" ({ depth := 100 } : Playback) [] =
      ({ depth := 101 }, [], RunRes.err "too many recursive LoadFiles") :=
  (C3_depth_leak.1 0 sampleEnv none "a" { depth := 100 } [] ["0:load a"]
    (by decide) (by decide)).trans (by decide)

/-- C4.  The claim says an injected `LoadFile` directive reaches the
interpreter mid-wait and the nested file is interpreted without panicking.
`Inject` does place `signal{kind: LoadFile, data: e}` on the signal channel —
but with `e` of the pointer type `*LoadFileEvent` (first conjunct), while the
interpreter's `LoadFile` branch asserts `sig.data.(LoadFileEvent)`, the value
type.  The assertion therefore always fails and the goroutine panics instead
of interpreting the nested file (second conjunct: the wait loop receiving the
injected signal ends in the interface-conversion panic, with no nested file
interpreted). -/
theorem C4_inject_loadfile_panics :
    Inject sampleEnv {} "load sub.scr" =
      InjectOut.sentSignal
        { kind := Control.LoadFile, data := SigData.ptrLoadFile { File := "sub.scr" } } ∧
    waitLoop 3 sampleEnv "top.scr" 1000 {}
        [TraceEvt.recv 2
          (some { kind := Control.LoadFile,
                  data := SigData.ptrLoadFile { File := "sub.scr" } })] =
      ({ duration := 2 }, [], WaitRes.fin (RunRes.panicked panicLoadFileMsg)) :=
  ⟨by decide, by decide⟩

/-- C6 counterexample.  On a closed session `Info` returns `nil` (not status
rows) and `GetStep` returns an error, so neither is precondition-free as the
claim states. -/
theorem C6_counterexample :
    Info { closed := true, file := some "a.scr", e := "0:key a" } = InfoResult.nilInfo ∧
    isRows (Info { closed := true, file := some "a.scr", e := "0:key a" }) = false ∧
    GetStep { closed := true, file := some "a.scr", e := "0:key a" } =
      Except.error "playback has already stopped" :=
  ⟨by decide, by decide, rfl⟩

/-- C6 (amended).  `Info` and `GetStep` require a session that is not closed:
on such a session (with a current file installed) `Info` returns the id, the
kind string, the `PAUSED` marker or the remaining duration, and the current
file name, and `GetStep` returns the current event description; on a closed
session `Info` returns `nil` and `GetStep` returns an error. -/
theorem C6_info_getstep (p : Playback) (fn : String)
    (hc : p.closed = false) (hf : p.file = some fn) :
    Info p = InfoResult.rows ([p.ID, "playback kb"] ++
      (if p.state = Control.Pause then ["PAUSED"]
       else [fmtDuration p.duration ++ " remaining"]) ++ [fn]) ∧
    GetStep p = Except.ok p.e ∧
    ∀ q : Playback, q.closed = true →
      Info q = InfoResult.nilInfo ∧
      GetStep q = Except.error "playback has already stopped" := by
  refine ⟨by simp [Info, hc, hf], by simp [GetStep, hc], ?_⟩
  intro q hq
  exact ⟨by simp [Info, hq], by simp [GetStep, hq]⟩

/-- C6 witness: a fresh session with a current file. -/
theorem C6_info_getstep_witness :
    Info ({ file := some "a.scr" } : Playback) =
      InfoResult.rows ["", "playback kb", "0 remaining", "a.scr"] :=
  ((C6_info_getstep { file := some "a.scr" } "a.scr" rfl rfl).1).trans (by decide)

/-- C7.  A `Step` signal arriving during a script-line wait makes the
interpreter act on the pending directive immediately — the wait loop falls
through to the `Event` label consuming no further wait — and the session's
remaining-duration estimate is decremented by exactly the outstanding delay:
the interrupt bookkeeping adds back the elapsed `w` and the `Step` branch
charges the whole outstanding amount, for a net decrement of `d`. -/
theorem C7_step_signal (fuel : Nat) (env : Env) (f : String) (d w : Int)
    (dat : SigData) (st : Playback) (tr : List TraceEvt) :
    waitLoop (fuel + 1) env f d st
        (TraceEvt.recv w (some { kind := Control.Step, data := dat }) :: tr) =
      ({ st with duration := st.duration - d }, tr, WaitRes.proceed) := by
  simp only [waitLoop, signalAdjust, addDuration]
  refine Prod.ext ?_ rfl
  simp only [Playback.mk.injEq, and_true, true_and]
  ring

/-- C8.  Path resolution for nested includes: a relative path with a parent
script file is resolved against the parent file's directory; an absolute path,
or the top-level script (no parent), is opened as given; and `playFile` opens
exactly the resolved path (when that path does not exist, it fails with an
open error naming it, before touching any session state). -/
theorem C8_path_resolution (fn pn : String) (fuel : Nat) (env : Env)
    (parent : Option String) (st : Playback) (tr : List TraceEvt) :
    (goIsAbs fn = false → resolvePath (some pn) fn = goJoin (goDir pn) fn) ∧
    (goIsAbs fn = true → resolvePath (some pn) fn = fn) ∧
    resolvePath none fn = fn ∧
    (env.fs (resolvePath parent fn) = none →
      playFile (fuel + 1) env parent fn st tr =
        (st, tr, RunRes.err ("open " ++ resolvePath parent fn))) := by
  refine ⟨fun h => by simp [resolvePath, h], fun h => by simp [resolvePath, h], rfl, ?_⟩
  intro h
  simp only [playFile, h]

/-- C8 witness: `sub.scr` included from `dir/top.scr` resolves to
`dir/sub.scr`; opening a missing top-level file fails with the open error. -/
theorem C8_path_resolution_witness :
    resolvePath (some "dir/top.scr") "sub.scr" = "dir/sub.scr" ∧
    playFile 1 noFilesEnv none "root.scr" {} [] =
      ({}, [], RunRes.err "open root.scr") :=
  ⟨((C8_path_resolution "sub.scr" "dir/top.scr" 0 noFilesEnv none {} []).1
      (by decide)).trans (by decide),
   ((C8_path_resolution "root.scr" "" 0 noFilesEnv none {} []).2.2.2
      (by decide)).trans (by decide)⟩

/-- C9.  Each of the four non-fatal per-line failures — a missing `:`
separator, a delay field beginning with `#`, a directive text the grammar
rejects, a delay that fails to parse — classifies the line as skipped (in the
last case after `setStep` has already recorded the line), and a skipped line
contributes nothing: interpretation of the file continues with the remaining
lines, returning no error on the skipped line's account. -/
theorem C9_skip_lines (env : Env) (st st1 : Playback) (text s0 s1 : String)
    (res : ParsedEvent) (fuel : Nat) (f : String) (rest : List String)
    (tr : List TraceEvt) :
    (splitN2 ':' text = none → lineAct env st text = LineAct.skipLine st) ∧
    (splitN2 ':' text = some (s0, s1) → commentLine s0 = true →
      lineAct env st text = LineAct.skipLine st) ∧
    (splitN2 ':' text = some (s0, s1) → commentLine s0 = false →
      env.grammar s1 = none → lineAct env st text = LineAct.skipLine st) ∧
    (splitN2 ':' text = some (s0, s1) → commentLine s0 = false →
      env.grammar s1 = some res → parseDelay s0 = none →
      lineAct env st text = LineAct.skipLine (setStep st text)) ∧
    (lineAct env st text = LineAct.skipLine st1 →
      playLines (fuel + 1) env f (text :: rest) st tr =
        playLines fuel env f rest st1 tr) := by
  refine ⟨?_, ?_, ?_, ?_, ?_⟩
  · intro h
    simp [lineAct, h]
  · intro h h2
    simp [lineAct, h, h2]
  · intro h h2 h3
    simp [lineAct, h, h2, h3]
  · intro h h2 h3 h4
    simp [lineAct, h, h2, h3, h4]
  · intro h
    simp only [playLines, h]

/-- C9 witness: a line without the separator is skipped and the file goes on
with the rest. -/
theorem C9_skip_lines_witness :
    lineAct sampleEnv {} "no separator here" = LineAct.skipLine {} ∧
    playLines 4 sampleEnv "a" ["no separator here", "0:key a"] {} [TraceEvt.timer] =
      playLines 3 sampleEnv "a" ["0:key a"] {} [TraceEvt.timer] := by
  have h := (C9_skip_lines sampleEnv {} {} "no separator here" "" ""
    (ParsedEvent.wire "") 3 "a" ["0:key a"] [TraceEvt.timer]).1 (by decide)
  exact ⟨h, (C9_skip_lines sampleEnv {} {} "no separator here" "" ""
    (ParsedEvent.wire "") 3 "a" ["0:key a"] [TraceEvt.timer]).2.2.2.2 h⟩

/-- C10.  In `ExpressionTree.match`, the `"Name"` case has no negative exit:
for every VM whose name does not contain the term, evaluation of a field list
beginning `"Name", "Host"` falls through into the `"Host"` case body, so the
match returns true whenever the host contains the term even though the field
under examination was `"Name"`. -/
theorem C10_name_falls_through_host (ipv4Term : String → String → Bool)
    (vm : VmInfo) (term : String) (rest : List String)
    (hn : stringIncludes (lowerStr vm.name) term = false)
    (hh : stringIncludes (lowerStr vm.host) term = true) :
    vmMatch ipv4Term vm term ("Name" :: "Host" :: rest) = true := by
  simp [vmMatch, hn, hh]

/-- C10 witness: name `alpha` does not contain `bet`, host `better-host`
does, and the match on the field list `Name, Host` reports true. -/
theorem C10_name_falls_through_host_witness :
    vmMatch (fun _ _ => false) sampleVm "bet" ["Name", "Host"] = true :=
  C10_name_falls_through_host (fun _ _ => false) sampleVm "bet" []
    (by decide) (by decide)

end Vnc
